import Mathlib

/-!
Verification of the `arith` calculus implementation (src/arith/src/main.rs):
an AST for booleans and naturals, a big-step evaluator, structural metrics
(size and depth), and the parse-tree-to-AST builder with its error taxonomy.
Each Rust function is shallowly embedded as an executable Lean definition,
translated clause by clause from the source.
-/

namespace Arith

/-- The AST sum type (Rust `enum AST`): seven variants, `Box` children become
direct recursive fields. -/
inductive AST where
  | True : AST
  | False : AST
  | Zero : AST
  | Succ : AST → AST
  | Pred : AST → AST
  | IsZero : AST → AST
  | IfThenElse : AST → AST → AST → AST
deriving DecidableEq, Repr

/-- The pest-generated `Rule` enum. The grammar exposes one rule kind per AST
variant plus the transparent `Term` wrapper; `Input` and `EOI` stand for the
remaining rule kinds of the grammar, which the builder does not recognize. -/
inductive Rule where
  | Input : Rule
  | Term : Rule
  | True : Rule
  | False : Rule
  | Zero : Rule
  | Succ : Rule
  | Pred : Rule
  | IsZero : Rule
  | IfThenElse : Rule
  | EOI : Rule
deriving DecidableEq, Repr

/-- Rust `enum ArithError`. `ParseError`'s pest diagnostic payload is outside
the embedded core (the parser is an external collaborator), so the variant is
kept payload-free. -/
inductive ArithError where
  | ParseError : ArithError
  | UnexpectedNodeError : Rule → ArithError
  | UnknownRuleError : AST → ArithError
  | EmptyPairsError : ArithError
deriving DecidableEq, Repr

/-- Rust `fn is_numeric_val(v: &AST) -> bool`. -/
def is_numeric_val : AST → Bool
  | AST.Zero => true
  | AST.Succ v => is_numeric_val v
  | _ => false

/-- Rust `fn is_val(v: &AST) -> bool`. -/
def is_val : AST → Bool
  | AST.True | AST.False => true
  | v => is_numeric_val v

/-- Rust `fn eval_ast(v: AST) -> Result<AST, ArithError>`: the big-step
evaluator. The Rust `v if is_val(&v)` guard arm becomes the leading `if`;
the remaining arms follow the source order. -/
def eval_ast (v : AST) : Except ArithError AST :=
  if is_val v then Except.ok v -- B-Value
  else
    match v with
    | AST.IfThenElse cond then_ els => do
        let cond ← eval_ast cond
        match cond with
        | AST.True => eval_ast then_ -- B-IfTrue
        | AST.False => eval_ast els -- B-IfFalse
        | v => Except.error (ArithError.UnknownRuleError v)
    | AST.Succ v => do
        let v ← eval_ast v
        if is_numeric_val v then Except.ok (AST.Succ v) -- B-Succ
        else Except.error (ArithError.UnknownRuleError v)
    | AST.Pred v => do
        let v ← eval_ast v
        match v with
        | AST.Zero => Except.ok AST.Zero -- B-PredZero
        | AST.Succ v' =>
            if is_numeric_val v' then Except.ok v' -- B-PredSucc
            else Except.error (ArithError.UnknownRuleError (AST.Succ v'))
        | v => Except.error (ArithError.UnknownRuleError v)
    | AST.IsZero v => do
        let v ← eval_ast v
        match v with
        | AST.Zero => Except.ok AST.True -- B-IsZeroZero
        | AST.Succ v' =>
            if is_numeric_val v' then Except.ok AST.False -- B-IsZeroSucc
            else Except.error (ArithError.UnknownRuleError (AST.Succ v'))
        | v => Except.error (ArithError.UnknownRuleError v)
    | v => Except.error (ArithError.UnknownRuleError v)

/-- Rust `fn arith_size(v: &AST) -> u128`: node count. Modeled over `Nat`:
a `u128` overflow would need an in-memory AST of `2^128` nodes, impossible
for an owned (unshared) tree. -/
def arith_size : AST → Nat
  | AST.True | AST.False | AST.Zero => 1
  | AST.Succ v | AST.Pred v | AST.IsZero v => 1 + arith_size v
  | AST.IfThenElse cond then_ els =>
      1 + arith_size cond + arith_size then_ + arith_size els

/-- Rust `fn arith_depth(v: &AST) -> u128`: longest root-to-leaf path. -/
def arith_depth : AST → Nat
  | AST.True | AST.False | AST.Zero => 1
  | AST.Succ v | AST.Pred v | AST.IsZero v => 1 + arith_depth v
  | AST.IfThenElse cond then_ els =>
      1 + Nat.max (Nat.max (arith_depth cond) (arith_depth then_)) (arith_depth els)

/-- A pest `Pair`: a concrete-parse-tree node with a rule kind and an ordered
list of children (the `Pairs` iterator of `into_inner()`). -/
inductive PNode where
  | mk : Rule → List PNode → PNode

/-- The rule kind of a parse node (`Pair::as_rule`). -/
def PNode.rule : PNode → Rule
  | PNode.mk r _ => r

/-- Rust `impl TryFrom<Pair<'_, Rule>> for AST` (`AST::try_from`), with
`TryTake::try_take` inlined as taking the head of the child list (the
iterator's `next().ok_or(EmptyPairsError)`). Children are taken and
converted left to right, as in the source. -/
def tryFrom : PNode → Except ArithError AST
  | PNode.mk Rule.Term cs =>
      match cs with
      | [] => Except.error ArithError.EmptyPairsError
      | c :: _ => tryFrom c
  | PNode.mk Rule.True _ => Except.ok AST.True
  | PNode.mk Rule.False _ => Except.ok AST.False
  | PNode.mk Rule.Zero _ => Except.ok AST.Zero
  | PNode.mk Rule.Succ cs =>
      match cs with
      | [] => Except.error ArithError.EmptyPairsError
      | c :: _ => do
          let t ← tryFrom c
          Except.ok (AST.Succ t)
  | PNode.mk Rule.Pred cs =>
      match cs with
      | [] => Except.error ArithError.EmptyPairsError
      | c :: _ => do
          let t ← tryFrom c
          Except.ok (AST.Pred t)
  | PNode.mk Rule.IsZero cs =>
      match cs with
      | [] => Except.error ArithError.EmptyPairsError
      | c :: _ => do
          let t ← tryFrom c
          Except.ok (AST.IsZero t)
  | PNode.mk Rule.IfThenElse cs =>
      match cs with
      | [] => Except.error ArithError.EmptyPairsError
      | c1 :: rest => do
          let g ← tryFrom c1
          match rest with
          | [] => Except.error ArithError.EmptyPairsError
          | c2 :: rest2 => do
              let t ← tryFrom c2
              match rest2 with
              | [] => Except.error ArithError.EmptyPairsError
              | c3 :: _ => do
                  let e ← tryFrom c3
                  Except.ok (AST.IfThenElse g t e)
  | PNode.mk r _ => Except.error (ArithError.UnexpectedNodeError r)

/-! ## Helper lemmas shared by the claim theorems -/

theorem ebind_ok {α β ε : Type} (x : α) (f : α → Except ε β) :
    (Except.ok x : Except ε α) >>= f = f x := rfl

theorem ebind_error {α β ε : Type} (e : ε) (f : α → Except ε β) :
    (Except.error e : Except ε α) >>= f = Except.error e := rfl

theorem is_val_of_numeric {v : AST} (h : is_numeric_val v = true) : is_val v = true := by
  cases v <;> simp_all [is_val, is_numeric_val]

theorem is_val_Succ {v : AST} (h : is_numeric_val v = true) : is_val (AST.Succ v) = true := by
  simp [is_val, is_numeric_val, h]

theorem eval_ast_of_is_val {v : AST} (h : is_val v = true) : eval_ast v = Except.ok v := by
  rw [eval_ast.eq_def, if_pos h]

theorem eval_ast_ok_is_val : ∀ t r : AST, eval_ast t = Except.ok r → is_val r = true := by
  intro t
  induction t with
  | True =>
      intro r h
      rw [eval_ast.eq_def] at h
      split at h
      · cases h; assumption
      · dsimp only at h; cases h
  | False =>
      intro r h
      rw [eval_ast.eq_def] at h
      split at h
      · cases h; assumption
      · dsimp only at h; cases h
  | Zero =>
      intro r h
      rw [eval_ast.eq_def] at h
      split at h
      · cases h; assumption
      · dsimp only at h; cases h
  | Succ v ih =>
      intro r h
      rw [eval_ast.eq_def] at h
      split at h
      · cases h; assumption
      · dsimp only at h
        cases heq : eval_ast v with
        | error e => rw [heq, ebind_error] at h; cases h
        | ok w =>
            rw [heq, ebind_ok] at h
            split at h
            · cases h; exact is_val_Succ (by assumption)
            · cases h
  | Pred v ih =>
      intro r h
      rw [eval_ast.eq_def] at h
      split at h
      · cases h; assumption
      · dsimp only at h
        cases heq : eval_ast v with
        | error e => rw [heq, ebind_error] at h; cases h
        | ok w =>
            rw [heq, ebind_ok] at h
            split at h
            · cases h; rfl
            · split at h
              · cases h; exact is_val_of_numeric (by assumption)
              · cases h
            · cases h
  | IsZero v ih =>
      intro r h
      rw [eval_ast.eq_def] at h
      split at h
      · cases h; assumption
      · dsimp only at h
        cases heq : eval_ast v with
        | error e => rw [heq, ebind_error] at h; cases h
        | ok w =>
            rw [heq, ebind_ok] at h
            split at h
            · cases h; rfl
            · split at h
              · cases h; rfl
              · cases h
            · cases h
  | IfThenElse c t e ihc iht ihe =>
      intro r h
      rw [eval_ast.eq_def] at h
      split at h
      · cases h; assumption
      · dsimp only at h
        cases heq : eval_ast c with
        | error er => rw [heq, ebind_error] at h; cases h
        | ok w =>
            rw [heq, ebind_ok] at h
            split at h
            · exact iht r h
            · exact ihe r h
            · cases h

theorem eval_ast_err_is_val :
    ∀ t v : AST, eval_ast t = Except.error (ArithError.UnknownRuleError v) → is_val v = true := by
  intro t
  induction t with
  | True =>
      intro v h
      rw [eval_ast.eq_def] at h
      split at h
      · cases h
      · exact absurd rfl (by assumption)
  | False =>
      intro v h
      rw [eval_ast.eq_def] at h
      split at h
      · cases h
      · exact absurd rfl (by assumption)
  | Zero =>
      intro v h
      rw [eval_ast.eq_def] at h
      split at h
      · cases h
      · exact absurd rfl (by assumption)
  | Succ u ih =>
      intro v h
      rw [eval_ast.eq_def] at h
      split at h
      · cases h
      · dsimp only at h
        cases heq : eval_ast u with
        | error e => rw [heq, ebind_error] at h; cases h; exact ih _ heq
        | ok w =>
            rw [heq, ebind_ok] at h
            split at h
            · cases h
            · cases h; exact eval_ast_ok_is_val u _ heq
  | Pred u ih =>
      intro v h
      rw [eval_ast.eq_def] at h
      split at h
      · cases h
      · dsimp only at h
        cases heq : eval_ast u with
        | error e => rw [heq, ebind_error] at h; cases h; exact ih _ heq
        | ok w =>
            rw [heq, ebind_ok] at h
            split at h
            · cases h
            · split at h
              · cases h
              · cases h; exact eval_ast_ok_is_val u _ heq
            · cases h; exact eval_ast_ok_is_val u _ heq
  | IsZero u ih =>
      intro v h
      rw [eval_ast.eq_def] at h
      split at h
      · cases h
      · dsimp only at h
        cases heq : eval_ast u with
        | error e => rw [heq, ebind_error] at h; cases h; exact ih _ heq
        | ok w =>
            rw [heq, ebind_ok] at h
            split at h
            · cases h
            · split at h
              · cases h
              · cases h; exact eval_ast_ok_is_val u _ heq
            · cases h; exact eval_ast_ok_is_val u _ heq
  | IfThenElse c t e ihc iht ihe =>
      intro v h
      rw [eval_ast.eq_def] at h
      split at h
      · cases h
      · dsimp only at h
        cases heq : eval_ast c with
        | error er => rw [heq, ebind_error] at h; cases h; exact ihc _ heq
        | ok w =>
            rw [heq, ebind_ok] at h
            split at h
            · exact iht _ h
            · exact ihe _ h
            · cases h; exact eval_ast_ok_is_val c _ heq

theorem arith_size_pos : ∀ t : AST, 1 ≤ arith_size t := by
  intro t
  cases t <;> simp only [arith_size] <;> omega

theorem eval_ast_ok_size_le :
    ∀ t r : AST, eval_ast t = Except.ok r → arith_size r ≤ arith_size t := by
  intro t
  induction t with
  | True =>
      intro r h
      rw [eval_ast.eq_def] at h
      split at h
      · cases h; exact Nat.le_refl _
      · dsimp only at h; cases h
  | False =>
      intro r h
      rw [eval_ast.eq_def] at h
      split at h
      · cases h; exact Nat.le_refl _
      · dsimp only at h; cases h
  | Zero =>
      intro r h
      rw [eval_ast.eq_def] at h
      split at h
      · cases h; exact Nat.le_refl _
      · dsimp only at h; cases h
  | Succ u ih =>
      intro r h
      rw [eval_ast.eq_def] at h
      split at h
      · cases h; exact Nat.le_refl _
      · dsimp only at h
        cases heq : eval_ast u with
        | error e => rw [heq, ebind_error] at h; cases h
        | ok w =>
            rw [heq, ebind_ok] at h
            split at h
            · cases h
              have := ih w heq
              simp only [arith_size]
              omega
            · cases h
  | Pred u ih =>
      intro r h
      rw [eval_ast.eq_def] at h
      split at h
      · cases h; exact Nat.le_refl _
      · dsimp only at h
        cases heq : eval_ast u with
        | error e => rw [heq, ebind_error] at h; cases h
        | ok w =>
            rw [heq, ebind_ok] at h
            split at h
            · cases h
              simp only [arith_size]
              omega
            · split at h
              · cases h
                have h2 := ih _ heq
                simp only [arith_size] at h2 ⊢
                omega
              · cases h
            · cases h
  | IsZero u ih =>
      intro r h
      rw [eval_ast.eq_def] at h
      split at h
      · cases h; exact Nat.le_refl _
      · dsimp only at h
        cases heq : eval_ast u with
        | error e => rw [heq, ebind_error] at h; cases h
        | ok w =>
            rw [heq, ebind_ok] at h
            split at h
            · cases h
              simp only [arith_size]
              omega
            · split at h
              · cases h
                simp only [arith_size]
                omega
              · cases h
            · cases h
  | IfThenElse c t e ihc iht ihe =>
      intro r h
      rw [eval_ast.eq_def] at h
      split at h
      · cases h; exact Nat.le_refl _
      · dsimp only at h
        cases heq : eval_ast c with
        | error er => rw [heq, ebind_error] at h; cases h
        | ok w =>
            rw [heq, ebind_ok] at h
            split at h
            · have := iht r h
              simp only [arith_size]
              omega
            · have := ihe r h
              simp only [arith_size]
              omega
            · cases h

theorem is_val_cases {v : AST} (h : is_val v = true) :
    v = AST.True ∨ v = AST.False ∨ is_numeric_val v = true := by
  cases v <;> simp_all [is_val]

theorem is_val_Pred_eq_false (v : AST) : is_val (AST.Pred v) = false := rfl

theorem arith_depth_le_size : ∀ t : AST, arith_depth t ≤ arith_size t ∧ 1 ≤ arith_depth t := by
  intro t
  induction t with
  | True => exact ⟨Nat.le_refl _, Nat.le_refl _⟩
  | False => exact ⟨Nat.le_refl _, Nat.le_refl _⟩
  | Zero => exact ⟨Nat.le_refl _, Nat.le_refl _⟩
  | Succ u ih =>
      obtain ⟨h1, h2⟩ := ih
      simp only [arith_depth, arith_size]
      omega
  | Pred u ih =>
      obtain ⟨h1, h2⟩ := ih
      simp only [arith_depth, arith_size]
      omega
  | IsZero u ih =>
      obtain ⟨h1, h2⟩ := ih
      simp only [arith_depth, arith_size]
      omega
  | IfThenElse c t e ihc iht ihe =>
      obtain ⟨hc1, hc2⟩ := ihc
      obtain ⟨ht1, ht2⟩ := iht
      obtain ⟨he1, he2⟩ := ihe
      simp only [arith_depth, arith_size]
      have hm : Nat.max (Nat.max (arith_depth c) (arith_depth t)) (arith_depth e) ≤
          arith_size c + arith_size t + arith_size e := by
        apply Nat.max_le.mpr
        refine ⟨Nat.max_le.mpr ⟨?_, ?_⟩, ?_⟩ <;> omega
      omega

/-! ## Claim theorems -/

/-- C1: for every AST `t`, if `eval_ast t` succeeds, the returned AST satisfies
the value predicate `is_val`: it is `True`, `False`, or a chain of `Succ`
applications ending in `Zero` (a numeric value). -/
theorem eval_value_closure : ∀ t r : AST, eval_ast t = Except.ok r →
    is_val r = true ∧ (r = AST.True ∨ r = AST.False ∨ is_numeric_val r = true) := by
  intro t r h
  have hv := eval_ast_ok_is_val t r h
  exact ⟨hv, is_val_cases hv⟩

/-- Witness for C1 at `t = IsZero Zero`, which evaluates to `True`. -/
theorem eval_value_closure_witness :
    is_val AST.True = true ∧
      (AST.True = AST.True ∨ AST.True = AST.False ∨ is_numeric_val AST.True = true) :=
  eval_value_closure (AST.IsZero AST.Zero) AST.True rfl

/-- C2: the stuck terms `Pred True`, `Succ True`, and `IfThenElse Zero True False`
all fail with `UnknownRuleError`, and the error carries exactly the node that
blocked reduction (`True`, `True`, and `Zero` respectively). -/
theorem stuck_term_detection :
    eval_ast (AST.Pred AST.True) = Except.error (ArithError.UnknownRuleError AST.True) ∧
    eval_ast (AST.Succ AST.True) = Except.error (ArithError.UnknownRuleError AST.True) ∧
    eval_ast (AST.IfThenElse AST.Zero AST.True AST.False) =
      Except.error (ArithError.UnknownRuleError AST.Zero) :=
  ⟨rfl, rfl, rfl⟩

/-- C4: evaluation of every finite AST terminates with a definite answer:
`eval_ast` is a total function returning either a value or an error. -/
theorem eval_total_value_or_error :
    ∀ t : AST, (∃ v, eval_ast t = Except.ok v ∧ is_val v = true) ∨
      (∃ e, eval_ast t = Except.error e) := by
  intro t
  cases h : eval_ast t with
  | ok v => exact Or.inl ⟨v, rfl, eval_ast_ok_is_val t v h⟩
  | error e => exact Or.inr ⟨e, rfl⟩

/-- C5: `arith_size` and `arith_depth` are total functions satisfying the
recursive defining equations claimed by the spec: 1 on literals, `1 + _` on
one-child variants, and sum/max forms on the conditional. -/
theorem size_depth_equations :
    (arith_size AST.True = 1 ∧ arith_size AST.False = 1 ∧ arith_size AST.Zero = 1 ∧
     arith_depth AST.True = 1 ∧ arith_depth AST.False = 1 ∧ arith_depth AST.Zero = 1) ∧
    (∀ t : AST, arith_size (AST.Succ t) = 1 + arith_size t ∧
      arith_size (AST.Pred t) = 1 + arith_size t ∧
      arith_size (AST.IsZero t) = 1 + arith_size t ∧
      arith_depth (AST.Succ t) = 1 + arith_depth t ∧
      arith_depth (AST.Pred t) = 1 + arith_depth t ∧
      arith_depth (AST.IsZero t) = 1 + arith_depth t) ∧
    (∀ g t e : AST,
      arith_size (AST.IfThenElse g t e) = 1 + arith_size g + arith_size t + arith_size e ∧
      arith_depth (AST.IfThenElse g t e) =
        1 + Nat.max (Nat.max (arith_depth g) (arith_depth t)) (arith_depth e)) :=
  ⟨⟨rfl, rfl, rfl, rfl, rfl, rfl⟩,
   fun _ => ⟨rfl, rfl, rfl, rfl, rfl, rfl⟩,
   fun _ _ _ => ⟨rfl, rfl⟩⟩

/-- C6: for every finite AST `t`, `size(t) ≥ depth(t) ≥ 1`. -/
theorem size_ge_depth_ge_one :
    ∀ t : AST, arith_depth t ≤ arith_size t ∧ 1 ≤ arith_depth t :=
  arith_depth_le_size

/-- C8: evaluating an AST that already satisfies the value predicate succeeds
and returns it unchanged (rule B-Value). -/
theorem eval_value_identity : ∀ v : AST, is_val v = true → eval_ast v = Except.ok v := by
  intro v h
  exact eval_ast_of_is_val h

/-- Witness for C8 at the numeric value `Succ Zero`. -/
theorem eval_value_identity_witness :
    is_val (AST.Succ AST.Zero) = true ∧
      eval_ast (AST.Succ AST.Zero) = Except.ok (AST.Succ AST.Zero) :=
  ⟨rfl, eval_value_identity (AST.Succ AST.Zero) rfl⟩

/-- C9: whenever evaluation fails with `UnknownRuleError v`, the carried
payload `v` itself satisfies the value predicate (it is the fully evaluated
result of a sub-term); the evaluator's final catch-all arm never fires. -/
theorem unknown_rule_payload_is_val :
    ∀ t v : AST, eval_ast t = Except.error (ArithError.UnknownRuleError v) →
      is_val v = true :=
  eval_ast_err_is_val

/-- Witness for C9 at `t = Pred True`: the payload `True` is a value. -/
theorem unknown_rule_payload_is_val_witness : is_val AST.True = true :=
  unknown_rule_payload_is_val (AST.Pred AST.True) AST.True rfl

/-- C10: evaluation never grows a term: a successful result is no larger
(in `arith_size`) than the input. -/
theorem eval_size_nonincreasing :
    ∀ t r : AST, eval_ast t = Except.ok r → arith_size r ≤ arith_size t :=
  eval_ast_ok_size_le

/-- Witness for C10 at `t = Pred (Succ Zero)`, which evaluates to `Zero`. -/
theorem eval_size_nonincreasing_witness :
    arith_size AST.Zero ≤ arith_size (AST.Pred (AST.Succ AST.Zero)) :=
  eval_size_nonincreasing (AST.Pred (AST.Succ AST.Zero)) AST.Zero rfl

/-- C3: `Pred v` first evaluates `v`; a `Zero` result gives `Zero` (B-PredZero),
a `Succ n` result with `n` numeric gives `n` (B-PredSucc), any other result is
stuck; and `Pred (Pred (Succ (Succ (Succ Zero))))` evaluates to `Succ Zero`. -/
theorem pred_evaluation_spec :
    (∀ (v : AST) (e : ArithError), eval_ast v = Except.error e →
      eval_ast (AST.Pred v) = Except.error e) ∧
    (∀ v : AST, eval_ast v = Except.ok AST.Zero →
      eval_ast (AST.Pred v) = Except.ok AST.Zero) ∧
    (∀ v n : AST, eval_ast v = Except.ok (AST.Succ n) → is_numeric_val n = true →
      eval_ast (AST.Pred v) = Except.ok n) ∧
    (∀ v r : AST, eval_ast v = Except.ok r → r ≠ AST.Zero → (∀ n, r ≠ AST.Succ n) →
      eval_ast (AST.Pred v) = Except.error (ArithError.UnknownRuleError r)) ∧
    eval_ast (AST.Pred (AST.Pred (AST.Succ (AST.Succ (AST.Succ AST.Zero))))) =
      Except.ok (AST.Succ AST.Zero) := by
  refine ⟨?_, ?_, ?_, ?_, rfl⟩
  · intro v e h
    rw [eval_ast.eq_def, if_neg (by simp [is_val_Pred_eq_false])]
    dsimp only
    rw [h, ebind_error]
  · intro v h
    rw [eval_ast.eq_def, if_neg (by simp [is_val_Pred_eq_false])]
    dsimp only
    rw [h, ebind_ok]
  · intro v n h hn
    rw [eval_ast.eq_def, if_neg (by simp [is_val_Pred_eq_false])]
    dsimp only
    rw [h, ebind_ok]
    dsimp only
    rw [if_pos hn]
  · intro v r h hz hs
    rw [eval_ast.eq_def, if_neg (by simp [is_val_Pred_eq_false])]
    dsimp only
    rw [h, ebind_ok]
    cases r with
    | True => rfl
    | False => rfl
    | Zero => exact absurd rfl hz
    | Succ n => exact absurd rfl (hs n)
    | Pred u => rfl
    | IsZero u => rfl
    | IfThenElse a b c => rfl

/-- Witness for C3: error propagation, B-PredZero, B-PredSucc, and a stuck
`Pred` applied to a boolean, each at a concrete input. -/
theorem pred_evaluation_spec_witness :
    eval_ast (AST.Pred (AST.Pred AST.True)) =
      Except.error (ArithError.UnknownRuleError AST.True) ∧
    eval_ast (AST.Pred AST.Zero) = Except.ok AST.Zero ∧
    eval_ast (AST.Pred (AST.Succ AST.Zero)) = Except.ok AST.Zero ∧
    eval_ast (AST.Pred AST.True) = Except.error (ArithError.UnknownRuleError AST.True) :=
  ⟨pred_evaluation_spec.1 (AST.Pred AST.True) (ArithError.UnknownRuleError AST.True) rfl,
   pred_evaluation_spec.2.1 AST.Zero rfl,
   pred_evaluation_spec.2.2.1 (AST.Succ AST.Zero) AST.Zero rfl rfl,
   pred_evaluation_spec.2.2.2.1 AST.True AST.True rfl (fun hh => nomatch hh)
     (fun n hh => nomatch hh)⟩

/-- C7: the AST Builder fails with `UnexpectedNodeError` carrying the rule kind
on any parse node whose kind is outside the recognized mapping, and with
`EmptyPairsError` when an operator/conditional node (or the transparent `Term`
wrapper) is missing one of its required children. -/
theorem builder_error_spec :
    (∀ (r : Rule) (cs : List PNode), r ≠ Rule.Term → r ≠ Rule.True → r ≠ Rule.False →
      r ≠ Rule.Zero → r ≠ Rule.Succ → r ≠ Rule.Pred → r ≠ Rule.IsZero →
      r ≠ Rule.IfThenElse →
      tryFrom (PNode.mk r cs) = Except.error (ArithError.UnexpectedNodeError r)) ∧
    (∀ r : Rule, (r = Rule.Term ∨ r = Rule.Succ ∨ r = Rule.Pred ∨ r = Rule.IsZero ∨
      r = Rule.IfThenElse) →
      tryFrom (PNode.mk r []) = Except.error ArithError.EmptyPairsError) ∧
    (∀ (c1 : PNode) (g : AST), tryFrom c1 = Except.ok g →
      tryFrom (PNode.mk Rule.IfThenElse [c1]) = Except.error ArithError.EmptyPairsError) ∧
    (∀ (c1 c2 : PNode) (g t : AST), tryFrom c1 = Except.ok g → tryFrom c2 = Except.ok t →
      tryFrom (PNode.mk Rule.IfThenElse [c1, c2]) =
        Except.error ArithError.EmptyPairsError) := by
  refine ⟨?_, ?_, ?_, ?_⟩
  · intro r cs h1 h2 h3 h4 h5 h6 h7 h8
    cases r with
    | Input => rfl
    | Term => exact absurd rfl h1
    | True => exact absurd rfl h2
    | False => exact absurd rfl h3
    | Zero => exact absurd rfl h4
    | Succ => exact absurd rfl h5
    | Pred => exact absurd rfl h6
    | IsZero => exact absurd rfl h7
    | IfThenElse => exact absurd rfl h8
    | EOI => rfl
  · intro r hr
    rcases hr with rfl | rfl | rfl | rfl | rfl <;> rfl
  · intro c1 g hg
    simp only [tryFrom]
    rw [hg, ebind_ok]
  · intro c1 c2 g t hg ht
    simp only [tryFrom]
    rw [hg, ebind_ok]
    show tryFrom c2 >>=
        (fun _ => (Except.error ArithError.EmptyPairsError : Except ArithError AST)) =
      Except.error ArithError.EmptyPairsError
    rw [ht, ebind_ok]

/-- Witness for C7: an unrecognized kind (`Input`), a childless `Succ`, and
`IfThenElse` nodes with one and two well-formed children. -/
theorem builder_error_spec_witness :
    tryFrom (PNode.mk Rule.Input []) =
      Except.error (ArithError.UnexpectedNodeError Rule.Input) ∧
    tryFrom (PNode.mk Rule.Succ []) = Except.error ArithError.EmptyPairsError ∧
    tryFrom (PNode.mk Rule.IfThenElse [PNode.mk Rule.Zero []]) =
      Except.error ArithError.EmptyPairsError ∧
    tryFrom (PNode.mk Rule.IfThenElse [PNode.mk Rule.Zero [], PNode.mk Rule.True []]) =
      Except.error ArithError.EmptyPairsError :=
  ⟨builder_error_spec.1 Rule.Input [] (by decide) (by decide) (by decide) (by decide)
      (by decide) (by decide) (by decide) (by decide),
   builder_error_spec.2.1 Rule.Succ (Or.inr (Or.inl rfl)),
   builder_error_spec.2.2.1 (PNode.mk Rule.Zero []) AST.Zero rfl,
   builder_error_spec.2.2.2 (PNode.mk Rule.Zero []) (PNode.mk Rule.True [])
     AST.Zero AST.True rfl rfl⟩
